import Mathlib

/-!
Shallow embedding of the RxJs-Tetris core (tetromino.ts, board.ts, main.ts).

Boards are lists of rows of cells, a cell being `none` (empty) or
`some color`.  Positions are integers, as in the source, where `x - 1`
can go negative before the bounds check rejects it.  JavaScript element
access `a[i]` on indices that have already been bounds-checked is
rendered with `List.getD`.  The single impure call, `randomTetromino()`,
is modelled by passing the drawn tetromino as an explicit oracle
argument (`rnd`); `randomTetromino` always returns a deep copy of one of
the seven catalog entries, captured by membership in `tetrominoList`.
-/

namespace Tetris

/-- A cell of the board: `none` is empty, `some c` holds color `c`. -/
abbrev Cell := Option String

/-- Board type from board.ts: a 2D grid of cells. -/
abbrev Board := List (List Cell)

/-- `GRID_WIDTH` from board.ts. -/
def GRID_WIDTH : Nat := 10

/-- `GRID_HEIGHT` from board.ts. -/
def GRID_HEIGHT : Nat := 20

/-- `Tetromino` interface from tetromino.ts: a 0/1 shape matrix and a color. -/
structure Tetromino where
  shape : List (List Nat)
  color : String
deriving Repr, DecidableEq

/-- The `I` entry of `TETROMINOES` in tetromino.ts. -/
def tetrominoI : Tetromino :=
  ⟨[[0, 0, 0, 0], [1, 1, 1, 1], [0, 0, 0, 0], [0, 0, 0, 0]], "cyan"⟩

/-- The `O` entry of `TETROMINOES` in tetromino.ts. -/
def tetrominoO : Tetromino :=
  ⟨[[1, 1], [1, 1]], "yellow"⟩

/-- The `T` entry of `TETROMINOES` in tetromino.ts. -/
def tetrominoT : Tetromino :=
  ⟨[[0, 1, 0], [1, 1, 1], [0, 0, 0]], "purple"⟩

/-- The `S` entry of `TETROMINOES` in tetromino.ts. -/
def tetrominoS : Tetromino :=
  ⟨[[0, 1, 1], [1, 1, 0], [0, 0, 0]], "green"⟩

/-- The `Z` entry of `TETROMINOES` in tetromino.ts. -/
def tetrominoZ : Tetromino :=
  ⟨[[1, 1, 0], [0, 1, 1], [0, 0, 0]], "red"⟩

/-- The `J` entry of `TETROMINOES` in tetromino.ts. -/
def tetrominoJ : Tetromino :=
  ⟨[[1, 0, 0], [1, 1, 1], [0, 0, 0]], "blue"⟩

/-- The `L` entry of `TETROMINOES` in tetromino.ts. -/
def tetrominoL : Tetromino :=
  ⟨[[0, 0, 1], [1, 1, 1], [0, 0, 0]], "orange"⟩

/-- The `TETROMINOES` catalog of tetromino.ts, in object-key order.
`randomTetromino()` returns a deep copy of one of these values. -/
def tetrominoList : List Tetromino :=
  [tetrominoI, tetrominoO, tetrominoT, tetrominoS, tetrominoZ, tetrominoJ, tetrominoL]

/-- `rotate` from tetromino.ts: 90-degree-clockwise rotation of an
`n × m` matrix into an `m × n` matrix via `rotated[j][n-1-i] = matrix[i][j]`.
The write loop is rendered functionally: entry `(j, k)` of the result is
`matrix[n-1-k][j]` (the unique `(i, j)` with `k = n-1-i`). -/
def rotate (matrix : List (List Nat)) : List (List Nat) :=
  let n := matrix.length
  let m := (matrix.getD 0 []).length
  (List.range m).map fun j =>
    (List.range n).map fun k =>
      (matrix.getD (n - 1 - k) []).getD j 0

/-- `createEmptyBoard` from board.ts. -/
def createEmptyBoard : Board :=
  List.replicate GRID_HEIGHT (List.replicate GRID_WIDTH (none : Cell))

/-- `canPlaceTetromino` from board.ts: every occupied (non-zero) shape
cell, mapped to `(posX+col, posY+row)`, must be inside the grid and over
an empty board cell.  The nested `for` loops with early `return false`
become nested `List.all` over index ranges. -/
def canPlaceTetromino (board : Board) (tetromino : Tetromino) (posX posY : Int) : Bool :=
  (List.range tetromino.shape.length).all fun row =>
    (List.range (tetromino.shape.getD row []).length).all fun col =>
      if (tetromino.shape.getD row []).getD col 0 ≠ 0 then
        if posX + (col : Int) < 0 ∨ posX + (col : Int) ≥ (GRID_WIDTH : Int) ∨
            posY + (row : Int) < 0 ∨ posY + (row : Int) ≥ (GRID_HEIGHT : Int) then
          false
        else if (board.getD (posY + (row : Int)).toNat []).getD (posX + (col : Int)).toNat none ≠ none then
          false
        else
          true
      else
        true

/-- `FallingBlock` from board.ts. -/
structure FallingBlock where
  tetromino : Tetromino
  x : Int
  y : Int
deriving Repr, DecidableEq

/-- Does the shape of `block`, mapped through `(block.x, block.y)`, write
board cell `(bi, bj)` (row `bi`, column `bj`) in `mergeTetromino`?  The
source writes `newBoard[boardY][boardX]` exactly when some occupied shape
cell `(row, col)` has `boardX = block.x + col`, `boardY = block.y + row`
and both are inside the grid (negative coordinates match no `Nat` cell). -/
def writesCell (block : FallingBlock) (bi bj : Nat) : Bool :=
  (List.range block.tetromino.shape.length).any fun row =>
    (List.range (block.tetromino.shape.getD row []).length).any fun col =>
      decide ((block.tetromino.shape.getD row []).getD col 0 ≠ 0 ∧
        block.x + col = (bj : Int) ∧ block.y + row = (bi : Int) ∧
        (bj : Int) < (GRID_WIDTH : Int) ∧ (bi : Int) < (GRID_HEIGHT : Int))

/-- `mergeTetromino` from board.ts: copy the board, then write the
block's color into every occupied shape cell that maps inside the grid.
Rendered cell-wise: position `(bi, bj)` of the copy gets the color iff
some occupied shape cell maps there (the map `(row, col) ↦ (boardY, boardX)`
is injective, so write order is irrelevant). -/
def mergeTetromino (board : Board) (block : FallingBlock) : Board :=
  (List.range board.length).map fun bi =>
    (List.range (board.getD bi []).length).map fun bj =>
      if writesCell block bi bj then
        some block.tetromino.color
      else
        (board.getD bi []).getD bj none

/-- `Action` from main.ts; `other` stands for any unrecognized action,
handled by the `default` branch of the reducer. -/
inductive Action where
  | tick
  | left
  | right
  | down
  | rotate
  | drop
  | other
deriving Repr, DecidableEq

/-- `State` from main.ts. -/
structure State where
  board : Board
  currentBlock : FallingBlock
  nextTetromino : Tetromino
  gameOver : Bool
  score : Nat
deriving Repr, DecidableEq

set_option linter.unusedVariables false in
/-- `spawnNewBlock` from main.ts: center the piece horizontally
(`x = Math.floor((GRID_WIDTH - tetrominoWidth) / 2)`, floor division) at `y = 0`.
The `board` parameter is accepted and unused, as in the source. -/
def spawnNewBlock (board : Board) (tetromino : Tetromino) : FallingBlock :=
  let tetrominoWidth := (tetromino.shape.getD 0 []).length
  { tetromino := tetromino, x := Int.fdiv ((GRID_WIDTH : Int) - tetrominoWidth) 2, y := 0 }

/-- Result record of `clearRows` in main.ts. -/
structure ClearResult where
  board : Board
  rowsCleared : Nat
deriving Repr, DecidableEq

/-- `clearRows` from main.ts: keep the rows that still have an empty
cell, report `GRID_HEIGHT - remaining` as cleared, and prepend that many
fresh empty rows. -/
def clearRows (board : Board) : ClearResult :=
  let remainingRows := board.filter fun row => row.any fun cell => cell = none
  let rowsCleared := GRID_HEIGHT - remainingRows.length
  let newRows : Board := List.replicate rowsCleared (List.replicate GRID_WIDTH (none : Cell))
  { board := newRows ++ remainingRows, rowsCleared := rowsCleared }

/-- The lock sequence shared verbatim by the landed `tick`/`down` branch
and the `drop` branch of `updateState` in main.ts: merge `blk`, clear
rows, add `rowsCleared * 100` to the score, spawn `nextTetromino`
centered at the top, take the oracle draw `rnd` as the new preview, and
set `gameOver` iff the spawned block cannot be placed. -/
def lockBlock (state : State) (blk : FallingBlock) (rnd : Tetromino) : State :=
  let newBoard := mergeTetromino state.board blk
  let cleared := clearRows newBoard
  let scoreIncrement := cleared.rowsCleared * 100
  let newBlock := spawnNewBlock cleared.board state.nextTetromino
  if !canPlaceTetromino cleared.board newBlock.tetromino newBlock.x newBlock.y then
    { board := cleared.board, currentBlock := newBlock, nextTetromino := rnd,
      gameOver := true, score := state.score + scoreIncrement }
  else
    { board := cleared.board, currentBlock := newBlock, nextTetromino := rnd,
      gameOver := false, score := state.score + scoreIncrement }

/-- The `while (canPlaceTetromino(board, t, x, dropY + 1)) dropY++` loop
of the `drop` branch.  The loop is partial in the source (a shape with no
occupied cell never stops), so it is modelled with explicit fuel; for
any shape with an occupied cell and any start `y ≥ -shape.length`, a fuel
of `GRID_HEIGHT + shape.length + 1` is never exhausted, because the loop
can only advance while `y + 1 + row < GRID_HEIGHT` for some occupied row. -/
def dropYFrom (board : Board) (tetromino : Tetromino) (x : Int) : Nat → Int → Int
  | 0, y => y
  | fuel + 1, y =>
    if canPlaceTetromino board tetromino x (y + 1) then
      dropYFrom board tetromino x fuel (y + 1)
    else
      y

/-- Fuel bound for `dropYFrom`, sufficient for every state whose active
block currently sits at a placeable position. -/
def dropFuel (tetromino : Tetromino) : Nat :=
  GRID_HEIGHT + tetromino.shape.length + 1

/-- `updateState` from main.ts.  `rnd` is the tetromino produced by the
`randomTetromino()` call in the lock branches (unused on non-locking
transitions, exactly as the source only draws in those branches). -/
def updateState (state : State) (action : Action) (rnd : Tetromino) : State :=
  if state.gameOver then state
  else
    let board := state.board
    let currentBlock := state.currentBlock
    match action with
    | Action.tick | Action.down =>
      if canPlaceTetromino board currentBlock.tetromino currentBlock.x (currentBlock.y + 1) then
        { state with currentBlock := { currentBlock with y := currentBlock.y + 1 } }
      else
        lockBlock state currentBlock rnd
    | Action.left =>
      if canPlaceTetromino board currentBlock.tetromino (currentBlock.x - 1) currentBlock.y then
        { state with currentBlock := { currentBlock with x := currentBlock.x - 1 } }
      else
        state
    | Action.right =>
      if canPlaceTetromino board currentBlock.tetromino (currentBlock.x + 1) currentBlock.y then
        { state with currentBlock := { currentBlock with x := currentBlock.x + 1 } }
      else
        state
    | Action.rotate =>
      let rotatedShape := rotate currentBlock.tetromino.shape
      let rotatedTetromino : Tetromino := { currentBlock.tetromino with shape := rotatedShape }
      if canPlaceTetromino board rotatedTetromino currentBlock.x currentBlock.y then
        { state with currentBlock := { currentBlock with tetromino := rotatedTetromino } }
      else
        state
    | Action.drop =>
      let dropY := dropYFrom board currentBlock.tetromino currentBlock.x
        (dropFuel currentBlock.tetromino) currentBlock.y
      let droppedBlock := { currentBlock with y := dropY }
      lockBlock state droppedBlock rnd
    | Action.other => state

/-- `initialState` from main.ts, with the two `randomTetromino()` draws
(active piece, preview) passed as oracle arguments. -/
def initialState (t0 t1 : Tetromino) : State :=
  { board := createEmptyBoard
    currentBlock := spawnNewBlock createEmptyBoard t0
    gameOver := false
    nextTetromino := t1
    score := 0 }

/-- States reachable by folding the reducer over any action sequence,
with every `randomTetromino()` draw being some catalog piece. -/
inductive Reachable : State → Prop where
  | init (t0 t1 : Tetromino) (h0 : t0 ∈ tetrominoList) (h1 : t1 ∈ tetrominoList) :
      Reachable (initialState t0 t1)
  | step (s : State) (a : Action) (rnd : Tetromino) (hr : rnd ∈ tetrominoList)
      (hs : Reachable s) : Reachable (updateState s a rnd)

/-! ## Helper lemmas -/

theorem updateState_of_gameOver (s : State) (a : Action) (rnd : Tetromino)
    (h : s.gameOver = true) : updateState s a rnd = s := by
  unfold updateState
  rw [if_pos h]

/-- A shape cell of `t` that forbids placement at `(posX, posY)`: an
occupied cell whose absolute coordinate falls outside the grid or
targets an already-occupied board cell. -/
def blockedCellAt (board : Board) (t : Tetromino) (posX posY : Int) (row col : Nat) : Prop :=
  row < t.shape.length ∧ col < (t.shape.getD row []).length ∧
  (t.shape.getD row []).getD col 0 ≠ 0 ∧
  (posX + col < 0 ∨ posX + col ≥ (GRID_WIDTH : Int) ∨
    posY + row < 0 ∨ posY + row ≥ (GRID_HEIGHT : Int) ∨
    (board.getD (posY + row).toNat []).getD (posX + col).toNat none ≠ none)

theorem canPlaceTetromino_eq_true_iff (board : Board) (t : Tetromino) (posX posY : Int) :
    canPlaceTetromino board t posX posY = true ↔
      ∀ row col, ¬ blockedCellAt board t posX posY row col := by
  unfold canPlaceTetromino
  simp only [List.all_eq_true, List.mem_range]
  constructor
  · intro h row col hb
    obtain ⟨hr, hc, hocc, hbad⟩ := hb
    have hbody := h row hr col hc
    rw [if_pos hocc] at hbody
    by_cases hoob : (posX + (col : Int) < 0 ∨ posX + (col : Int) ≥ (GRID_WIDTH : Int) ∨
        posY + (row : Int) < 0 ∨ posY + (row : Int) ≥ (GRID_HEIGHT : Int))
    · rw [if_pos hoob] at hbody
      exact Bool.false_ne_true hbody
    · rw [if_neg hoob] at hbody
      rcases hbad with hb | hb | hb | hb | hb
      · exact hoob (Or.inl hb)
      · exact hoob (Or.inr (Or.inl hb))
      · exact hoob (Or.inr (Or.inr (Or.inl hb)))
      · exact hoob (Or.inr (Or.inr (Or.inr hb)))
      · rw [if_pos hb] at hbody
        exact Bool.false_ne_true hbody
  · intro h row hr col hc
    by_cases hocc : (t.shape.getD row []).getD col 0 ≠ 0
    · rw [if_pos hocc]
      have hnb := h row col
      unfold blockedCellAt at hnb
      push_neg at hnb
      obtain ⟨hb1, hb2, hb3, hb4, hb5⟩ := hnb hr hc hocc
      have hoob : ¬ (posX + (col : Int) < 0 ∨ posX + (col : Int) ≥ (GRID_WIDTH : Int) ∨
          posY + (row : Int) < 0 ∨ posY + (row : Int) ≥ (GRID_HEIGHT : Int)) := by
        intro hcon
        rcases hcon with hcon | hcon | hcon | hcon
        · exact absurd hcon (not_lt.mpr hb1)
        · exact absurd hcon (not_le.mpr hb2)
        · exact absurd hcon (not_lt.mpr hb3)
        · exact absurd hcon (not_le.mpr hb4)
      rw [if_neg hoob, if_neg (fun hcon => hcon hb5)]
    · rw [if_neg hocc]

/-! ## Claim theorems -/

/-- C2: `canPlaceTetromino` returns false iff some occupied (non-zero)
shape cell, mapped to `(posX+col, posY+row)`, falls outside
`[0,W)×[0,H)` or targets an already-occupied board cell; empty shape
cells impose no constraint (the existential requires the cell be
occupied), and the function is pure. -/
theorem canPlaceTetromino_false_iff (board : Board) (t : Tetromino) (posX posY : Int) :
    canPlaceTetromino board t posX posY = false ↔
      ∃ row col, blockedCellAt board t posX posY row col := by
  have : (canPlaceTetromino board t posX posY = false) ↔
      ¬ (canPlaceTetromino board t posX posY = true) := by simp
  rw [this, canPlaceTetromino_eq_true_iff]
  push_neg
  simp

/-- C6: the GameOver state is terminal and absorbing — for every state
with `gameOver = true` and every action (including unrecognized ones),
`updateState` returns the state unchanged. -/
theorem gameOver_absorbing (s : State) (a : Action) (rnd : Tetromino)
    (h : s.gameOver = true) : updateState s a rnd = s :=
  updateState_of_gameOver s a rnd h

/-- A concrete game-over state used to witness C6. -/
def sGameOverW : State :=
  { board := createEmptyBoard
    currentBlock := spawnNewBlock createEmptyBoard tetrominoO
    nextTetromino := tetrominoT
    gameOver := true
    score := 300 }

/-- Witness for C6 at a concrete game-over state and the `drop` action. -/
theorem gameOver_absorbing_witness :
    sGameOverW.gameOver = true ∧ updateState sGameOverW Action.drop tetrominoI = sGameOverW :=
  ⟨rfl, gameOver_absorbing sGameOverW Action.drop tetrominoI rfl⟩

/-- Row fullness as the spec words it: a row is full iff it contains no
empty cell.  `clearRows` in the source keeps the rows satisfying
`row.some(cell => cell === null)`, i.e. the non-full ones. -/
def isFullRow (row : List Cell) : Bool :=
  row.all fun cell => cell ≠ none

theorem countP_notFull_add_countP_full (B : Board) :
    B.countP (fun row => row.any fun cell => cell = none) + B.countP isFullRow = B.length := by
  have hsplit := List.length_eq_countP_add_countP
    (fun row : List Cell => row.any fun cell => decide (cell = none)) B
  have hcongr : B.countP
      (fun a => decide (¬ ((fun row : List Cell =>
        row.any fun cell => decide (cell = none)) a = true))) = B.countP isFullRow := by
    apply List.countP_congr
    intro a _
    simp [isFullRow, List.all_eq_true, List.any_eq_true]
    exact ⟨fun h x hx hxe => h (hxe ▸ hx), fun h hm => h none hm rfl⟩
  rw [hcongr] at hsplit
  exact hsplit.symm

theorem clearRows_rowsCleared_eq (B : Board) (hB : B.length = GRID_HEIGHT) :
    (clearRows B).rowsCleared = B.countP isFullRow := by
  have hsum := countP_notFull_add_countP_full B
  rw [hB] at hsum
  have hflen : (B.filter fun row => row.any fun cell => decide (cell = none)).length
      = B.countP fun row => row.any fun cell => decide (cell = none) :=
    (List.countP_eq_length_filter _ _).symm
  simp only [clearRows]
  rw [hflen]
  omega

theorem clearRows_board_length (B : Board) (hB : B.length = GRID_HEIGHT) :
    (clearRows B).board.length = GRID_HEIGHT := by
  have hle : (B.filter fun row => row.any fun cell => decide (cell = none)).length ≤ GRID_HEIGHT :=
    hB ▸ List.length_filter_le _ B
  simp only [clearRows, List.length_append, List.length_replicate]
  omega

theorem clearRows_board_eq (B : Board) (hB : B.length = GRID_HEIGHT) :
    (clearRows B).board =
      List.replicate (B.countP isFullRow) (List.replicate GRID_WIDTH (none : Cell)) ++
        B.filter fun row => !(isFullRow row) := by
  have hfiltereq : (B.filter fun row => row.any fun cell => decide (cell = none))
      = B.filter fun row => !(isFullRow row) := by
    apply List.filter_congr
    intro a _
    simp [isFullRow, List.any_eq_not_all_not]
  have hboard : (clearRows B).board =
      List.replicate ((clearRows B).rowsCleared) (List.replicate GRID_WIDTH (none : Cell)) ++
        B.filter fun row => row.any fun cell => decide (cell = none) := rfl
  rw [hboard, clearRows_rowsCleared_eq B hB, hfiltereq]

/-- C3: on an `H`-row board, `clearRows` clears exactly the full rows
(those with no empty cell), keeps the remaining rows in order, prepends
that many fresh empty rows, reports that count, and returns a board of
exactly `H = 20` rows. -/
theorem clearRows_spec (B : Board) (hB : B.length = GRID_HEIGHT) :
    (clearRows B).board.length = GRID_HEIGHT ∧
    (clearRows B).rowsCleared = B.countP isFullRow ∧
    (clearRows B).board =
      List.replicate (B.countP isFullRow) (List.replicate GRID_WIDTH (none : Cell)) ++
        B.filter fun row => !(isFullRow row) :=
  ⟨clearRows_board_length B hB, clearRows_rowsCleared_eq B hB, clearRows_board_eq B hB⟩

/-- A concrete 20-row board for the C3 witness: rows 0–18 empty, row 19
completely filled. -/
def boardClearW : Board :=
  List.replicate 19 (List.replicate GRID_WIDTH (none : Cell)) ++
    [List.replicate GRID_WIDTH (some "gray")]

/-- Witness for C3 on a board whose bottom row is full. -/
theorem clearRows_spec_witness :
    boardClearW.length = GRID_HEIGHT ∧
    ((clearRows boardClearW).board.length = GRID_HEIGHT ∧
      (clearRows boardClearW).rowsCleared = boardClearW.countP isFullRow ∧
      (clearRows boardClearW).board =
        List.replicate (boardClearW.countP isFullRow) (List.replicate GRID_WIDTH (none : Cell)) ++
          boardClearW.filter fun row => !(isFullRow row)) :=
  ⟨by decide, clearRows_spec boardClearW (by decide)⟩

/-- C5: `rotate` sends an `n × m` matrix to the `m × n` matrix with
`rotated[j][n-1-i] = matrix[i][j]` for all valid `(i, j)` (it builds a
fresh matrix, so the input is untouched), and rotating any of the seven
canonical catalog shapes four times reproduces it exactly. -/
theorem rotate_spec :
    (∀ (matrix : List (List Nat)) (i j : Nat),
      (∀ row ∈ matrix, row.length = (matrix.getD 0 []).length) →
      i < matrix.length → j < (matrix.getD 0 []).length →
      ((rotate matrix).length = (matrix.getD 0 []).length ∧
        ((rotate matrix).getD j []).length = matrix.length ∧
        ((rotate matrix).getD j []).getD (matrix.length - 1 - i) 0
          = (matrix.getD i []).getD j 0)) ∧
    (∀ t ∈ tetrominoList, rotate (rotate (rotate (rotate t.shape))) = t.shape) := by
  constructor
  · intro matrix i j hrect hi hj
    have hk : matrix.length - 1 - i < matrix.length := by omega
    have hj2 : j < (matrix[0]?.getD []).length := by
      rw [← List.getD_eq_getElem?_getD]
      exact hj
    have hrowj : (rotate matrix).getD j [] =
        (List.range matrix.length).map fun k =>
          (matrix.getD (matrix.length - 1 - k) []).getD j 0 := by
      simp only [rotate]
      rw [List.getD_eq_getElem?_getD, List.getElem?_map]
      simp [List.getElem?_range, hj2]
    refine ⟨by simp [rotate], ?_, ?_⟩
    · rw [hrowj]
      simp
    · rw [hrowj]
      rw [List.getD_eq_getElem?_getD, List.getElem?_map]
      simp only [List.getElem?_range, hk, Option.map_some', Option.getD_some]
      have hidx : matrix.length - 1 - (matrix.length - 1 - i) = i := by omega
      rw [hidx]
  · decide

/-- Witness for C5's matrix-mapping part, at the T shape and `(i, j) = (1, 2)`. -/
theorem rotate_spec_witness :
    (∀ row ∈ tetrominoT.shape, row.length = (tetrominoT.shape.getD 0 []).length) ∧
    ((rotate tetrominoT.shape).length = (tetrominoT.shape.getD 0 []).length ∧
      ((rotate tetrominoT.shape).getD 2 []).length = tetrominoT.shape.length ∧
      ((rotate tetrominoT.shape).getD 2 []).getD (tetrominoT.shape.length - 1 - 1) 0
        = (tetrominoT.shape.getD 1 []).getD 2 0) :=
  ⟨by decide, rotate_spec.1 tetrominoT.shape 1 2 (by decide) (by decide) (by decide)⟩

/-- C7: `mergeTetromino` keeps the board's dimensions, writes the
block's color exactly at the board cells hit by an occupied shape cell
that maps inside the grid (`writesCell`), leaves every other cell
unchanged, and builds a fresh board (the input is untouched).  The final
equivalence unfolds `writesCell`: occupied shape cells mapping outside
the grid match no board cell, i.e. they are silently skipped. -/
theorem mergeTetromino_spec (board : Board) (block : FallingBlock) (bi bj : Nat)
    (hbi : bi < board.length) (hbj : bj < (board.getD bi []).length) :
    (mergeTetromino board block).length = board.length ∧
    ((mergeTetromino board block).getD bi []).length = (board.getD bi []).length ∧
    ((mergeTetromino board block).getD bi []).getD bj none =
      (if writesCell block bi bj then some block.tetromino.color
        else (board.getD bi []).getD bj none) ∧
    (writesCell block bi bj = true ↔
      ∃ row col, row < block.tetromino.shape.length ∧
        col < (block.tetromino.shape.getD row []).length ∧
        (block.tetromino.shape.getD row []).getD col 0 ≠ 0 ∧
        block.x + col = (bj : Int) ∧ block.y + row = (bi : Int) ∧
        (bj : Int) < (GRID_WIDTH : Int) ∧ (bi : Int) < (GRID_HEIGHT : Int)) := by
  have hrow : (mergeTetromino board block).getD bi [] =
      (List.range (board.getD bi []).length).map fun bj2 =>
        if writesCell block bi bj2 then some block.tetromino.color
        else (board.getD bi []).getD bj2 none := by
    simp only [mergeTetromino]
    rw [List.getD_eq_getElem?_getD, List.getElem?_map]
    simp [List.getElem?_range, hbi]
  refine ⟨by simp [mergeTetromino], ?_, ?_, ?_⟩
  · rw [hrow]
    simp
  · rw [hrow]
    rw [List.getD_eq_getElem?_getD, List.getElem?_map, List.getElem?_range hbj]
    simp only [Option.map_some', Option.getD_some]
  · unfold writesCell
    simp only [List.any_eq_true, List.mem_range, decide_eq_true_eq]
    constructor
    · intro h
      obtain ⟨row, hr, col, hc, hp⟩ := h
      exact ⟨row, col, hr, hc, hp.1, hp.2.1, hp.2.2.1, hp.2.2.2.1, hp.2.2.2.2⟩
    · intro h
      obtain ⟨row, col, hr, hc, h1, h2, h3, h4, h5⟩ := h
      exact ⟨row, hr, col, hc, h1, h2, h3, h4, h5⟩

/-- A concrete merge for the C7 witness: the O piece at `(4, 18)` on the
empty board, looked at cell `(18, 4)`. -/
theorem mergeTetromino_spec_witness :
    (18 < createEmptyBoard.length ∧ 4 < (createEmptyBoard.getD 18 []).length) ∧
    ((mergeTetromino createEmptyBoard ⟨tetrominoO, 4, 18⟩).length = createEmptyBoard.length ∧
      ((mergeTetromino createEmptyBoard ⟨tetrominoO, 4, 18⟩).getD 18 []).length
        = (createEmptyBoard.getD 18 []).length ∧
      ((mergeTetromino createEmptyBoard ⟨tetrominoO, 4, 18⟩).getD 18 []).getD 4 none =
        (if writesCell ⟨tetrominoO, 4, 18⟩ 18 4 then some (⟨tetrominoO, 4, 18⟩ : FallingBlock).tetromino.color
          else (createEmptyBoard.getD 18 []).getD 4 none) ∧
      (writesCell ⟨tetrominoO, 4, 18⟩ 18 4 = true ↔
        ∃ row col, row < tetrominoO.shape.length ∧
          col < (tetrominoO.shape.getD row []).length ∧
          (tetrominoO.shape.getD row []).getD col 0 ≠ 0 ∧
          (4 : Int) + col = (4 : Int) ∧ (18 : Int) + row = (18 : Int) ∧
          (4 : Int) < (GRID_WIDTH : Int) ∧ (18 : Int) < (GRID_HEIGHT : Int))) :=
  ⟨⟨by decide, by decide⟩,
    mergeTetromino_spec createEmptyBoard ⟨tetrominoO, 4, 18⟩ 18 4 (by decide) (by decide)⟩

/-! ## Reducer reduction lemmas -/

theorem lockBlock_eq (s : State) (blk : FallingBlock) (rnd : Tetromino) :
    lockBlock s blk rnd =
      { board := (clearRows (mergeTetromino s.board blk)).board
        currentBlock := spawnNewBlock (clearRows (mergeTetromino s.board blk)).board s.nextTetromino
        nextTetromino := rnd
        gameOver := !canPlaceTetromino (clearRows (mergeTetromino s.board blk)).board
          (spawnNewBlock (clearRows (mergeTetromino s.board blk)).board s.nextTetromino).tetromino
          (spawnNewBlock (clearRows (mergeTetromino s.board blk)).board s.nextTetromino).x
          (spawnNewBlock (clearRows (mergeTetromino s.board blk)).board s.nextTetromino).y
        score := s.score + (clearRows (mergeTetromino s.board blk)).rowsCleared * 100 } := by
  unfold lockBlock
  by_cases hc : canPlaceTetromino (clearRows (mergeTetromino s.board blk)).board
      (spawnNewBlock (clearRows (mergeTetromino s.board blk)).board s.nextTetromino).tetromino
      (spawnNewBlock (clearRows (mergeTetromino s.board blk)).board s.nextTetromino).x
      (spawnNewBlock (clearRows (mergeTetromino s.board blk)).board s.nextTetromino).y = true <;>
    simp_all

theorem lockBlock_gameOver_false_valid (s : State) (blk : FallingBlock) (rnd : Tetromino)
    (h : (lockBlock s blk rnd).gameOver = false) :
    canPlaceTetromino (lockBlock s blk rnd).board (lockBlock s blk rnd).currentBlock.tetromino
      (lockBlock s blk rnd).currentBlock.x (lockBlock s blk rnd).currentBlock.y = true := by
  rw [lockBlock_eq] at h ⊢
  simp only at h ⊢
  simpa using h

theorem updateState_tickdown_lock (s : State) (a : Action) (rnd : Tetromino)
    (hg : s.gameOver = false) (ha : a = Action.tick ∨ a = Action.down)
    (hland : canPlaceTetromino s.board s.currentBlock.tetromino
      s.currentBlock.x (s.currentBlock.y + 1) = false) :
    updateState s a rnd = lockBlock s s.currentBlock rnd := by
  rcases ha with rfl | rfl <;> simp [updateState, hg, hland]

theorem updateState_drop_eq (s : State) (rnd : Tetromino) (hg : s.gameOver = false) :
    updateState s Action.drop rnd =
      lockBlock s
        { s.currentBlock with
          y := dropYFrom s.board s.currentBlock.tetromino s.currentBlock.x
            (dropFuel s.currentBlock.tetromino) s.currentBlock.y } rnd := by
  simp [updateState, hg]

/-- C8: when the target placement of a `left`, `right`, or `rotate`
action is invalid, `updateState` returns the input state itself — the
move is rejected silently, and no wall-kick search is attempted for
rotation (the only placement tested is the same `(x, y)` with the
rotated shape). -/
theorem rejected_moves_noop (s : State) (rnd : Tetromino) (hg : s.gameOver = false) :
    (canPlaceTetromino s.board s.currentBlock.tetromino
        (s.currentBlock.x - 1) s.currentBlock.y = false →
      updateState s Action.left rnd = s) ∧
    (canPlaceTetromino s.board s.currentBlock.tetromino
        (s.currentBlock.x + 1) s.currentBlock.y = false →
      updateState s Action.right rnd = s) ∧
    (canPlaceTetromino s.board
        { s.currentBlock.tetromino with shape := rotate s.currentBlock.tetromino.shape }
        s.currentBlock.x s.currentBlock.y = false →
      updateState s Action.rotate rnd = s) := by
  refine ⟨fun h => ?_, fun h => ?_, fun h => ?_⟩ <;> simp [updateState, hg, h]

/-- A board that is fully occupied except exactly under the T block of
`sBoxedW`, so that left, right and rotate are all rejected. -/
def boardBoxedW : Board :=
  (List.range GRID_HEIGHT).map fun r =>
    (List.range GRID_WIDTH).map fun c =>
      if (r = 10 ∧ c = 5) ∨ (r = 11 ∧ (c = 4 ∨ c = 5 ∨ c = 6)) then none else some "gray"

/-- A state whose active T block is boxed in on all sides. -/
def sBoxedW : State :=
  { board := boardBoxedW
    currentBlock := ⟨tetrominoT, 4, 10⟩
    nextTetromino := tetrominoO
    gameOver := false
    score := 0 }

/-- Witness for C8: on the boxed-in state, all three moves are invalid
and each returns the state unchanged. -/
theorem rejected_moves_noop_witness :
    (sBoxedW.gameOver = false ∧
      canPlaceTetromino sBoxedW.board sBoxedW.currentBlock.tetromino
        (sBoxedW.currentBlock.x - 1) sBoxedW.currentBlock.y = false ∧
      canPlaceTetromino sBoxedW.board sBoxedW.currentBlock.tetromino
        (sBoxedW.currentBlock.x + 1) sBoxedW.currentBlock.y = false ∧
      canPlaceTetromino sBoxedW.board
        { sBoxedW.currentBlock.tetromino with shape := rotate sBoxedW.currentBlock.tetromino.shape }
        sBoxedW.currentBlock.x sBoxedW.currentBlock.y = false) ∧
    updateState sBoxedW Action.left tetrominoI = sBoxedW ∧
    updateState sBoxedW Action.right tetrominoI = sBoxedW ∧
    updateState sBoxedW Action.rotate tetrominoI = sBoxedW :=
  ⟨⟨rfl, by decide, by decide, by decide⟩,
    (rejected_moves_noop sBoxedW tetrominoI rfl).1 (by decide),
    (rejected_moves_noop sBoxedW tetrominoI rfl).2.1 (by decide),
    (rejected_moves_noop sBoxedW tetrominoI rfl).2.2 (by decide)⟩

/-- C4: in every state reachable from the initial state, while the game
is not over, the active block is validly placed — every occupied shape
cell lies inside the board over an empty cell, i.e. `canPlaceTetromino`
holds at the block's current position.  Every action preserves this. -/
theorem activeBlock_valid_of_reachable (s : State) (h : Reachable s)
    (hg : s.gameOver = false) :
    canPlaceTetromino s.board s.currentBlock.tetromino
      s.currentBlock.x s.currentBlock.y = true := by
  revert hg
  induction h with
  | init t0 t1 h0 h1 =>
    intro _
    have hspawn : canPlaceTetromino createEmptyBoard
        (spawnNewBlock createEmptyBoard t0).tetromino
        (spawnNewBlock createEmptyBoard t0).x (spawnNewBlock createEmptyBoard t0).y = true := by
      simp only [tetrominoList, List.mem_cons, List.not_mem_nil, or_false] at h0
      rcases h0 with rfl | rfl | rfl | rfl | rfl | rfl | rfl <;> decide
    exact hspawn
  | step s a rnd hr hs ih =>
    intro hg
    by_cases hgo : s.gameOver = true
    · rw [updateState_of_gameOver s a rnd hgo] at hg
      rw [hgo] at hg
      exact absurd hg (by simp)
    · have hgf : s.gameOver = false := by simpa using hgo
      cases a with
      | tick =>
        by_cases hc : canPlaceTetromino s.board s.currentBlock.tetromino
            s.currentBlock.x (s.currentBlock.y + 1) = true
        · simp [updateState, hgf, hc]
        · have hc2 : canPlaceTetromino s.board s.currentBlock.tetromino
              s.currentBlock.x (s.currentBlock.y + 1) = false := by simpa using hc
          rw [updateState_tickdown_lock s Action.tick rnd hgf (Or.inl rfl) hc2] at hg ⊢
          exact lockBlock_gameOver_false_valid s s.currentBlock rnd hg
      | down =>
        by_cases hc : canPlaceTetromino s.board s.currentBlock.tetromino
            s.currentBlock.x (s.currentBlock.y + 1) = true
        · simp [updateState, hgf, hc]
        · have hc2 : canPlaceTetromino s.board s.currentBlock.tetromino
              s.currentBlock.x (s.currentBlock.y + 1) = false := by simpa using hc
          rw [updateState_tickdown_lock s Action.down rnd hgf (Or.inr rfl) hc2] at hg ⊢
          exact lockBlock_gameOver_false_valid s s.currentBlock rnd hg
      | left =>
        by_cases hc : canPlaceTetromino s.board s.currentBlock.tetromino
            (s.currentBlock.x - 1) s.currentBlock.y = true
        · simp [updateState, hgf, hc]
        · have hc2 : canPlaceTetromino s.board s.currentBlock.tetromino
              (s.currentBlock.x - 1) s.currentBlock.y = false := by simpa using hc
          simp only [updateState, hgf, hc2]
          simpa [updateState, hgf, hc2] using ih hgf
      | right =>
        by_cases hc : canPlaceTetromino s.board s.currentBlock.tetromino
            (s.currentBlock.x + 1) s.currentBlock.y = true
        · simp [updateState, hgf, hc]
        · have hc2 : canPlaceTetromino s.board s.currentBlock.tetromino
              (s.currentBlock.x + 1) s.currentBlock.y = false := by simpa using hc
          simpa [updateState, hgf, hc2] using ih hgf
      | rotate =>
        by_cases hc : canPlaceTetromino s.board
            { s.currentBlock.tetromino with shape := rotate s.currentBlock.tetromino.shape }
            s.currentBlock.x s.currentBlock.y = true
        · simp [updateState, hgf, hc]
        · have hc2 : canPlaceTetromino s.board
              { s.currentBlock.tetromino with shape := rotate s.currentBlock.tetromino.shape }
              s.currentBlock.x s.currentBlock.y = false := by simpa using hc
          simpa [updateState, hgf, hc2] using ih hgf
      | drop =>
        rw [updateState_drop_eq s rnd hgf] at hg ⊢
        exact lockBlock_gameOver_false_valid s _ rnd hg
      | other =>
        simpa [updateState, hgf] using ih hgf

/-- Witness for C4 at the concrete initial state spawning an O piece. -/
theorem activeBlock_valid_of_reachable_witness :
    (initialState tetrominoO tetrominoT).gameOver = false ∧
    canPlaceTetromino (initialState tetrominoO tetrominoT).board
      (initialState tetrominoO tetrominoT).currentBlock.tetromino
      (initialState tetrominoO tetrominoT).currentBlock.x
      (initialState tetrominoO tetrominoT).currentBlock.y = true :=
  ⟨rfl, activeBlock_valid_of_reachable (initialState tetrominoO tetrominoT)
    (Reachable.init tetrominoO tetrominoT (by decide) (by decide)) rfl⟩

/-- C1: on a non-game-over state whose active block cannot move down,
`tick` or `down` performs the lock sequence: the block is merged, full
rows are cleared, the score grows by `rowsCleared × 100` (with
`rowsCleared` the number of full rows of the merged board), the
previously queued `nextTetromino` spawns at
`x = floor((W − pieceWidth)/2)`, `y = 0`, the oracle draw becomes the
new preview, and `gameOver` is set iff the spawned block cannot be
placed on the post-clear board (board, score and spawned block being
recorded either way, since the remaining conjuncts hold without
assuming `gameOver`'s value). -/
theorem lock_on_landing (s : State) (a : Action) (rnd : Tetromino)
    (hB : s.board.length = GRID_HEIGHT)
    (hg : s.gameOver = false)
    (ha : a = Action.tick ∨ a = Action.down)
    (hland : canPlaceTetromino s.board s.currentBlock.tetromino
      s.currentBlock.x (s.currentBlock.y + 1) = false) :
    (updateState s a rnd).board = (clearRows (mergeTetromino s.board s.currentBlock)).board ∧
    (updateState s a rnd).score =
      s.score + (mergeTetromino s.board s.currentBlock).countP isFullRow * 100 ∧
    (updateState s a rnd).currentBlock.tetromino = s.nextTetromino ∧
    (updateState s a rnd).currentBlock.x =
      Int.fdiv ((GRID_WIDTH : Int) - (s.nextTetromino.shape.getD 0 []).length) 2 ∧
    (updateState s a rnd).currentBlock.y = 0 ∧
    (updateState s a rnd).nextTetromino = rnd ∧
    ((updateState s a rnd).gameOver = true ↔
      canPlaceTetromino (clearRows (mergeTetromino s.board s.currentBlock)).board
        s.nextTetromino (updateState s a rnd).currentBlock.x 0 = false) := by
  have hmlen : (mergeTetromino s.board s.currentBlock).length = GRID_HEIGHT := by
    simpa [mergeTetromino] using hB
  rw [updateState_tickdown_lock s a rnd hg ha hland, lockBlock_eq]
  refine ⟨rfl, ?_, rfl, rfl, rfl, rfl, ?_⟩
  · simp only
    rw [clearRows_rowsCleared_eq _ hmlen]
  · simp [Bool.not_eq_true', spawnNewBlock]

/-- The state for the C1 witness: an O piece resting on the floor of an
empty board, with a T piece queued as preview. -/
def sLandW : State :=
  { board := createEmptyBoard
    currentBlock := ⟨tetrominoO, 4, 18⟩
    nextTetromino := tetrominoT
    gameOver := false
    score := 0 }

/-- Witness for C1: ticking the landed O piece of `sLandW` locks it. -/
theorem lock_on_landing_witness :
    (sLandW.board.length = GRID_HEIGHT ∧ sLandW.gameOver = false ∧
      canPlaceTetromino sLandW.board sLandW.currentBlock.tetromino
        sLandW.currentBlock.x (sLandW.currentBlock.y + 1) = false) ∧
    ((updateState sLandW Action.tick tetrominoI).board =
        (clearRows (mergeTetromino sLandW.board sLandW.currentBlock)).board ∧
      (updateState sLandW Action.tick tetrominoI).score =
        sLandW.score + (mergeTetromino sLandW.board sLandW.currentBlock).countP isFullRow * 100 ∧
      (updateState sLandW Action.tick tetrominoI).currentBlock.tetromino = sLandW.nextTetromino ∧
      (updateState sLandW Action.tick tetrominoI).currentBlock.x =
        Int.fdiv ((GRID_WIDTH : Int) - (sLandW.nextTetromino.shape.getD 0 []).length) 2 ∧
      (updateState sLandW Action.tick tetrominoI).currentBlock.y = 0 ∧
      (updateState sLandW Action.tick tetrominoI).nextTetromino = tetrominoI ∧
      ((updateState sLandW Action.tick tetrominoI).gameOver = true ↔
        canPlaceTetromino (clearRows (mergeTetromino sLandW.board sLandW.currentBlock)).board
          sLandW.nextTetromino (updateState sLandW Action.tick tetrominoI).currentBlock.x 0
            = false)) :=
  ⟨⟨by decide, rfl, by decide⟩,
    lock_on_landing sLandW Action.tick tetrominoI (by decide) rfl (Or.inl rfl) (by decide)⟩

/-- Repeated application of the `tick` action with a fixed oracle draw. -/
def iterTick (rnd : Tetromino) : Nat → State → State
  | 0, s => s
  | n + 1, s => iterTick rnd n (updateState s Action.tick rnd)

/-- The board left behind by the O piece of Scenario A locking at
`(4, 18)` on the empty board: yellow cells at rows 18–19, columns 4–5. -/
def boardAfterOLock : Board :=
  (List.range GRID_HEIGHT).map fun r =>
    (List.range GRID_WIDTH).map fun c =>
      if (r = 18 ∨ r = 19) ∧ (c = 4 ∨ c = 5) then some "yellow" else none

/-- Counterexample to C9 as stated: after 19 ticks the O piece is *not*
still falling at `y = 18` — the 19th tick already locks it (18 ticks
take it from `y = 0` to `y = 18`, so the 19th finds `y + 1 = 19`
unplaceable), leaving the locked board with the preview T spawned. -/
theorem scenarioA_counterexample :
    iterTick tetrominoI 19 (initialState tetrominoO tetrominoT) ≠
      { initialState tetrominoO tetrominoT with
        currentBlock := { tetromino := tetrominoO, x := 4, y := (18 : Int) } } ∧
    iterTick tetrominoI 19 (initialState tetrominoO tetrominoT) =
      { board := boardAfterOLock
        currentBlock := ⟨tetrominoT, 3, 0⟩
        nextTetromino := tetrominoI
        gameOver := false
        score := 0 } := by
  decide

/-- C9 (amended): Scenario A — an O piece spawned at `(4, 0)` on the
empty board falls one row per `tick` without locking for 18 ticks,
reaching `y = 18` (its bottom occupied row at board row 19), and the
19th tick locks it into the bottom two board rows and hands control to
the preview piece. -/
theorem scenarioA (k : Nat) (hk : k ≤ 18) :
    iterTick tetrominoI k (initialState tetrominoO tetrominoT) =
      { initialState tetrominoO tetrominoT with
        currentBlock := { tetromino := tetrominoO, x := 4, y := (k : Int) } } ∧
    iterTick tetrominoI 19 (initialState tetrominoO tetrominoT) =
      { board := boardAfterOLock
        currentBlock := ⟨tetrominoT, 3, 0⟩
        nextTetromino := tetrominoI
        gameOver := false
        score := 0 } := by
  refine ⟨?_, by decide⟩
  exact (by decide : ∀ m : Nat, m ≤ 18 →
    iterTick tetrominoI m (initialState tetrominoO tetrominoT) =
      { initialState tetrominoO tetrominoT with
        currentBlock := { tetromino := tetrominoO, x := 4, y := (m : Int) } }) k hk

/-- Witness for C9 at `k = 18`, the last non-locking tick. -/
theorem scenarioA_witness :
    (18 : Nat) ≤ 18 ∧
    (iterTick tetrominoI 18 (initialState tetrominoO tetrominoT) =
      { initialState tetrominoO tetrominoT with
        currentBlock := { tetromino := tetrominoO, x := 4, y := (18 : Int) } } ∧
    iterTick tetrominoI 19 (initialState tetrominoO tetrominoT) =
      { board := boardAfterOLock
        currentBlock := ⟨tetrominoT, 3, 0⟩
        nextTetromino := tetrominoI
        gameOver := false
        score := 0 }) :=
  ⟨by decide, scenarioA 18 (by decide)⟩

/-- The board left behind by the T piece of Scenario D locking at
`(3, 18)` on the empty board: purple cells at `(18,4)`, `(19,3)`,
`(19,4)`, `(19,5)`. -/
def boardAfterTDrop : Board :=
  (List.range GRID_HEIGHT).map fun r =>
    (List.range GRID_WIDTH).map fun c =>
      if (r = 18 ∧ c = 4) ∨ (r = 19 ∧ (c = 3 ∨ c = 4 ∨ c = 5)) then some "purple" else none

/-- Counterexample to C10 as stated: for the T piece (a 3×3 matrix whose
bottom matrix row is empty) dropped from `y = 0` on the empty board, the
resting offset computed by the drop loop is 18, not
`H − shapeHeight = 17`; placement at `y = 18` is still valid (so 17 is
not the resting row of the repeated `canPlaceTetromino` test the claim
itself describes), and the locked board differs from a merge at
`y = 17`. -/
theorem scenarioD_counterexample :
    dropYFrom createEmptyBoard tetrominoT 3 (dropFuel tetrominoT) 0 = 18 ∧
    (18 : Int) ≠ (GRID_HEIGHT : Int) - tetrominoT.shape.length ∧
    canPlaceTetromino createEmptyBoard tetrominoT 3
      ((GRID_HEIGHT : Int) - tetrominoT.shape.length + 1) = true ∧
    (updateState (initialState tetrominoT tetrominoO) Action.drop tetrominoI).board ≠
      mergeTetromino createEmptyBoard
        ⟨tetrominoT, 3, (GRID_HEIGHT : Int) - tetrominoT.shape.length⟩ := by
  decide

/-- C10 (amended): `drop` on an empty board lands the T piece from
`y = 0`, in a single atomic transition, at the resting offset `y = 18`
found by repeatedly testing `canPlaceTetromino` at `y+1` — placing its
bottom *occupied* shape row (matrix row 1; matrix row 2 of T is empty)
at board row `H − 1` — and then performs the same lock sequence as
`tick`/`down`. -/
theorem scenarioD_amended :
    dropYFrom createEmptyBoard tetrominoT 3 (dropFuel tetrominoT) 0 = 18 ∧
    canPlaceTetromino createEmptyBoard tetrominoT 3 18 = true ∧
    canPlaceTetromino createEmptyBoard tetrominoT 3 19 = false ∧
    updateState (initialState tetrominoT tetrominoO) Action.drop tetrominoI =
      { board := boardAfterTDrop
        currentBlock := ⟨tetrominoO, 4, 0⟩
        nextTetromino := tetrominoI
        gameOver := false
        score := 0 } := by
  decide

end Tetris
